import Mathlib

/-!
# Verification of the RAG query pipeline (`src/rag.py`)

A shallow embedding of the retrieval-augmented query pipeline of `rag.py`:
the chunker (`RAGApp.chunk_text`), the query/answer path (`RAGApp.query`),
the audit log writer (`RAGApp.save_query_log`), the interactive-loop step
(`RAGApp.run_interactive`), and a spec-level model of the vector index.

Python strings are modelled as `List Char`, Python ints as `Int` (`Nat`
where the source value is a count), fallible code as `Except`.  Library
primitives the source relies on (`str.split`, `range`, list slicing,
`str.strip`, `str.lower`, `datetime.strftime`) are modelled by explicit
executable definitions mirroring their documented Python semantics.
-/

/-! ## Python library primitives -/

/-- Python `str.split()` with no arguments: split on runs of whitespace,
dropping empty pieces.  Structural worker: `cur` is the (reversed) word
being accumulated. -/
def pyWordsAux : List Char → List Char → List (List Char)
  | [], cur => if cur = [] then [] else [cur.reverse]
  | c :: rest, cur =>
    if c.isWhitespace then
      if cur = [] then pyWordsAux rest [] else cur.reverse :: pyWordsAux rest []
    else pyWordsAux rest (c :: cur)

/-- Python `text.split()` (no separator argument). -/
def pyWords (l : List Char) : List (List Char) := pyWordsAux l []

/-- Python list slicing `xs[start:stop]` (step 1): negative indices count
from the end, and both bounds are clamped to the list. -/
def pySlice {α : Type} (xs : List α) (start stop : Int) : List α :=
  let n : Int := xs.length
  let s : Int := if start < 0 then max (n + start) 0 else min start n
  let e : Int := if stop < 0 then max (n + stop) 0 else min stop n
  (xs.drop s.toNat).take (e - s).toNat

/-- Python `range(0, n, step)` as used by `chunk_text`: raises `ValueError`
on a zero step, descends (hence is empty, as `n ≥ 0`) on a negative step,
and otherwise yields `0, step, 2*step, …` below `n`. -/
def pyRange0 (n : Nat) (step : Int) : Except (List Char) (List Nat) :=
  if step = 0 then Except.error ("range() arg 3 must not be zero".data)
  else if step < 0 then Except.ok []
  else Except.ok ((List.range ((n + step.toNat - 1) / step.toNat)).map (fun k => k * step.toNat))

/-- Python `str.strip()`: remove leading and trailing whitespace. -/
def pyStrip (l : List Char) : List Char :=
  ((l.dropWhile Char.isWhitespace).reverse.dropWhile Char.isWhitespace).reverse

/-- Python `str.lower()` (ASCII case, which is all the REPL commands use). -/
def pyLower (l : List Char) : List Char := l.map Char.toLower

/-! ## Chunker (`RAGApp.chunk_text`, rag.py lines 50-61) -/

/-- The loop of `chunk_text` over the already-split word list:
`for i in range(0, len(words), chunk_size - overlap):
   chunk = ' '.join(words[i:i + chunk_size]);  if chunk: chunks.append(chunk)`. -/
def chunksFromWords (words : List (List Char)) (chunk_size overlap : Int) :
    Except (List Char) (List (List Char)) :=
  match pyRange0 words.length (chunk_size - overlap) with
  | Except.error e => Except.error e
  | Except.ok idxs =>
      Except.ok (idxs.foldl (fun chunks (i : Nat) =>
        let chunk := List.intercalate [' '] (pySlice words (i : Int) ((i : Int) + chunk_size))
        if chunk = [] then chunks else chunks ++ [chunk]) [])

/-- `RAGApp.chunk_text(text, chunk_size, overlap)`: split `text` into
whitespace-delimited words, then emit space-rejoined windows of
`chunk_size` words advancing by `chunk_size - overlap`. -/
def chunk_text (text : List Char) (chunk_size overlap : Int) :
    Except (List Char) (List (List Char)) :=
  chunksFromWords (pyWords text) chunk_size overlap

/-- The start indices `pyRange0` yields for a positive step `S`. -/
def startsList (n S : Nat) : List Nat :=
  (List.range ((n + S - 1) / S)).map (fun k => k * S)

/-! ## Timestamps and the audit log (`RAGApp.save_query_log`, rag.py lines 158-193) -/

/-- A `datetime.datetime` value as observed by `datetime.now()`:
calendar fields plus microseconds. -/
structure PyDatetime where
  year : Nat
  month : Nat
  day : Nat
  hour : Nat
  minute : Nat
  second : Nat
  micro : Nat
deriving DecidableEq

/-- The ranges `datetime` guarantees for the fields of `now()`. -/
def PyDatetime.Valid (t : PyDatetime) : Prop :=
  t.year < 10000 ∧ 1 ≤ t.month ∧ t.month ≤ 12 ∧ 1 ≤ t.day ∧ t.day ≤ 31 ∧
    t.hour < 24 ∧ t.minute < 60 ∧ t.second < 60 ∧ t.micro < 1000000

instance (t : PyDatetime) : Decidable t.Valid := by
  unfold PyDatetime.Valid; infer_instance

/-- The character of a decimal digit. -/
def digitChar (d : Nat) : Char := Char.ofNat (48 + d)

/-- Zero-padded two-digit rendering (`%m`, `%d`, `%H`, `%M`, `%S`). -/
def pad2 (n : Nat) : List Char := [digitChar (n / 10 % 10), digitChar (n % 10)]

/-- Zero-padded four-digit rendering (`%Y` for years below 10000). -/
def pad4 (n : Nat) : List Char :=
  [digitChar (n / 1000 % 10), digitChar (n / 100 % 10), digitChar (n / 10 % 10),
    digitChar (n % 10)]

/-- Zero-padded six-digit rendering (`%f`, microseconds). -/
def pad6 (n : Nat) : List Char :=
  [digitChar (n / 100000 % 10), digitChar (n / 10000 % 10), digitChar (n / 1000 % 10),
    digitChar (n / 100 % 10), digitChar (n / 10 % 10), digitChar (n % 10)]

/-- `t.strftime("%Y%m%d_%H%M%S_%f")`, the filename timestamp of
`save_query_log`. -/
def strftimeQuery (t : PyDatetime) : List Char :=
  pad4 t.year ++ pad2 t.month ++ pad2 t.day ++ ['_'] ++ pad2 t.hour ++ pad2 t.minute ++
    pad2 t.second ++ ['_'] ++ pad6 t.micro

/-- The `token_info` dict built on the success path of `RAGApp.query`
(each field read with `response.get(key, 0)`). -/
structure TokenInfo where
  prompt_eval_count : Nat
  eval_count : Nat
  total_duration : Nat
  load_duration : Nat
  prompt_eval_duration : Nat
  eval_duration : Nat
deriving DecidableEq

/-- The nested `timing` object of `token_details` (the float-valued
`*_sec` convenience copies of the two nanosecond durations are omitted
from the model). -/
structure TokenTiming where
  total_duration_ns : Nat
  load_duration_ns : Nat
  prompt_eval_duration_ns : Nat
  eval_duration_ns : Nat
deriving DecidableEq

/-- The optional `token_details` object of a log record. -/
structure TokenDetails where
  prompt_tokens : Nat
  response_tokens : Nat
  total_tokens : Nat
  timing : TokenTiming
deriving DecidableEq

/-- The `metadata` object of a log record. -/
structure LogMetadata where
  context_length_chars : Nat
  prompt_length_chars : Nat
  pdf_source : List Char
deriving DecidableEq

/-- The `log_data` JSON object written by `save_query_log`. -/
structure LogData where
  timestamp : PyDatetime
  model : List Char
  question : List Char
  response : List Char
  metadata : LogMetadata
  token_details : Option TokenDetails
deriving DecidableEq

/-- `RAGApp.save_query_log`: builds the timestamped filename
`query_{now:%Y%m%d_%H%M%S_%f}.json` and the structured record (with a
`token_details` object exactly when `token_info` is present), returning
the pair (filename, record).  `now` is the wall-clock datetime the call
observes. -/
def save_query_log (now : PyDatetime) (pdf_path question answer : List Char)
    (context_length prompt_length : Nat) (token_info : Option TokenInfo) :
    List Char × LogData :=
  let timestamp := strftimeQuery now
  let log_data : LogData :=
    { timestamp := now
      model := "qwen3-vl:32b".data
      question := question
      response := answer
      metadata :=
        { context_length_chars := context_length
          prompt_length_chars := prompt_length
          pdf_source := pdf_path }
      token_details := token_info.map (fun ti =>
        { prompt_tokens := ti.prompt_eval_count
          response_tokens := ti.eval_count
          total_tokens := ti.prompt_eval_count + ti.eval_count
          timing :=
            { total_duration_ns := ti.total_duration
              load_duration_ns := ti.load_duration
              prompt_eval_duration_ns := ti.prompt_eval_duration
              eval_duration_ns := ti.eval_duration } }) }
  ("query_".data ++ timestamp ++ ".json".data, log_data)

/-! ## Query pipeline (`RAGApp.query`, rag.py lines 91-156) -/

/-- The `ollama.chat` response as read by `RAGApp.query`: the message
content plus the optional token/timing telemetry fields. -/
structure ChatResponse where
  content : List Char
  prompt_eval_count : Option Nat
  eval_count : Option Nat
  total_duration : Option Nat
  load_duration : Option Nat
  prompt_eval_duration : Option Nat
  eval_duration : Option Nat
deriving DecidableEq

/-- `context = "\n\n".join(context_chunks)` (rag.py line 101). -/
def queryContext (context_chunks : List (List Char)) : List Char :=
  List.intercalate "\n\n".data context_chunks

/-- The f-string prompt of rag.py lines 107-114, interpolating the
context block and the question. -/
def queryPrompt (context question : List Char) : List Char :=
  "Based on the following context from the document, please answer the question.\n\nContext:\n".data
    ++ context ++ "\n\nQuestion: ".data ++ question ++ "\n\nAnswer:".data

/-- `RAGApp.query(question, n_results)`.  The already-performed retrieval
is the `retrieval` argument (the document list `results['documents'][0]`,
or the exception the vector-store query raised — the source has no
handler around it, so an error propagates).  The inference backend is a
function from the prompt it is sent to its outcome; `now` is the
wall-clock datetime observed by the log write.  Returns the answer text
together with the list of log writes performed by the call. -/
def RAGApp.query (question : List Char)
    (retrieval : Except (List Char) (List (List Char)))
    (backend : List Char → Except (List Char) ChatResponse)
    (now : PyDatetime) (pdf_path : List Char) :
    Except (List Char) (List Char × List (List Char × LogData)) :=
  match retrieval with
  | Except.error e => Except.error e
  | Except.ok context_chunks =>
    let context := queryContext context_chunks
    let context_length := context.length
    let prompt := queryPrompt context question
    let prompt_length := prompt.length
    match backend prompt with
    | Except.ok response =>
      let answer := response.content
      let token_info : TokenInfo :=
        { prompt_eval_count := response.prompt_eval_count.getD 0
          eval_count := response.eval_count.getD 0
          total_duration := response.total_duration.getD 0
          load_duration := response.load_duration.getD 0
          prompt_eval_duration := response.prompt_eval_duration.getD 0
          eval_duration := response.eval_duration.getD 0 }
      Except.ok (answer,
        [save_query_log now pdf_path question answer context_length prompt_length
          (some token_info)])
    | Except.error e =>
      let error_msg := "Error querying model: ".data ++ e
      Except.ok (error_msg,
        [save_query_log now pdf_path question error_msg context_length prompt_length none])

/-! ## Interactive loop body (`RAGApp.run_interactive`, rag.py lines 209-236) -/

/-- The observable outcome of one iteration of the REPL loop. -/
inductive LoopStep where
  | skip
  | quit
  | stats
  | answered (a : List Char)
  | errored (msg : List Char)
deriving DecidableEq

/-- One iteration of `run_interactive`'s `while True` body: strip the
input line; skip empty input; `quit`/`exit`/`q` break; `stats` reports;
anything else is a question passed to `self.query`, whose exception (if
any) is caught by the iteration's handler and printed as
`Error: {str(e)}`. -/
def run_interactive_step (raw : List Char)
    (do_query : List Char → Except (List Char) (List Char)) : LoopStep :=
  let question := pyStrip raw
  if question = [] then LoopStep.skip
  else if pyLower question ∈ ["quit".data, "exit".data, "q".data] then LoopStep.quit
  else if pyLower question = "stats".data then LoopStep.stats
  else
    match do_query question with
    | Except.ok a => LoopStep.answered a
    | Except.error e => LoopStep.errored ("Error: ".data ++ e)

/-! ## VectorIndex (spec section 4.2) -/

/-- Modelled from the spec: the VectorIndex component (spec section 4.2)
is realized in the source by the external chromadb library
(`self.collection.query`, rag.py lines 94-97), whose code is not part of
this repository.  An index entry is a stored chunk with its id. -/
structure IndexEntry where
  id : Nat
  text : List Char
deriving DecidableEq

/-- Ranking relation: non-increasing similarity score. -/
def scoreGE (p q : IndexEntry × Rat) : Prop := q.2 ≤ p.2

instance : DecidableRel scoreGE :=
  fun p q => inferInstanceAs (Decidable (q.2 ≤ p.2))

instance : IsTotal (IndexEntry × Rat) scoreGE :=
  ⟨fun a b => le_total b.2 a.2⟩

instance : IsTrans (IndexEntry × Rat) scoreGE :=
  ⟨fun _ _ _ h1 h2 => le_trans h2 h1⟩

/-- Modelled from the spec: `VectorIndex.query(text, top_k)` scores every
entry of the current generation by similarity to the query (`sim` is the
similarity-to-the-query function the embedding function induces), orders
by descending score, and returns at most `top_k` of them. -/
def VectorIndex.query (entries : List IndexEntry) (sim : IndexEntry → Rat)
    (top_k : Nat) : List (IndexEntry × Rat) :=
  ((entries.map (fun e => (e, sim e))).insertionSort scoreGE).take top_k

/-- Modelled from the spec: `VectorIndex.count()` is the number of
entries in the current generation. -/
def VectorIndex.count (entries : List IndexEntry) : Nat := entries.length

/-! ## Spec-side prompt template (spec section 4.3) -/

/-- Following the spec's words (section 4.3): the prompt is the fixed
three-part template — a document context block (the retrieved chunks'
texts joined by a blank-line separator in ranked order), then the
literal question, then an explicit answer cue. -/
def specThreePartPrompt (ranked_chunks : List (List Char)) (question : List Char) :
    List Char :=
  let context := List.intercalate "\n\n".data ranked_chunks
  "Based on the following context from the document, please answer the question.\n\nContext:\n".data
    ++ context ++ ("\n\nQuestion: ".data ++ question) ++ "\n\nAnswer:".data

/-! ## Lemmas about the word splitter -/

lemma pyWordsAux_ne_nil : ∀ (l cur : List Char), ∀ w ∈ pyWordsAux l cur, w ≠ [] := by
  intro l
  induction l with
  | nil =>
    intro cur w hw
    simp only [pyWordsAux] at hw
    split at hw
    · simp at hw
    · rename_i hcur
      simp only [List.mem_singleton] at hw
      subst hw
      simpa [List.reverse_eq_nil_iff] using hcur
  | cons c rest ih =>
    intro cur w hw
    simp only [pyWordsAux] at hw
    split at hw
    · split at hw
      · exact ih [] w hw
      · rename_i hcur
        rcases List.mem_cons.mp hw with h | h
        · subst h; simpa [List.reverse_eq_nil_iff] using hcur
        · exact ih [] w h
    · exact ih (c :: cur) w hw

lemma pyWords_ne_nil (l : List Char) : ∀ w ∈ pyWords l, w ≠ [] :=
  pyWordsAux_ne_nil l []

lemma pyWordsAux_no_ws : ∀ (l cur : List Char), (∀ ch ∈ cur, ch.isWhitespace = false) →
    ∀ w ∈ pyWordsAux l cur, ∀ ch ∈ w, ch.isWhitespace = false := by
  intro l
  induction l with
  | nil =>
    intro cur hcur w hw ch hch
    simp only [pyWordsAux] at hw
    split at hw
    · simp at hw
    · simp only [List.mem_singleton] at hw
      subst hw
      exact hcur ch (List.mem_reverse.mp hch)
  | cons c rest ih =>
    intro cur hcur w hw ch hch
    simp only [pyWordsAux] at hw
    split at hw
    · split at hw
      · exact ih [] (by simp) w hw ch hch
      · rcases List.mem_cons.mp hw with h | h
        · subst h; exact hcur ch (List.mem_reverse.mp hch)
        · exact ih [] (by simp) w h ch hch
    · rename_i hc
      refine ih (c :: cur) ?_ w hw ch hch
      intro d hd
      rcases List.mem_cons.mp hd with h | h
      · subst h; simpa using hc
      · exact hcur d h

lemma pyWords_no_ws (l : List Char) : ∀ w ∈ pyWords l, ∀ ch ∈ w, ch.isWhitespace = false :=
  pyWordsAux_no_ws l [] (by simp)

lemma pyWords_all_ws (l : List Char) (h : ∀ ch ∈ l, ch.isWhitespace = true) :
    pyWords l = [] := by
  unfold pyWords
  induction l with
  | nil => rfl
  | cons c rest ih =>
    have hc : c.isWhitespace = true := h c (List.mem_cons_self c rest)
    simp only [pyWordsAux, hc, if_true, if_pos rfl]
    exact ih (fun ch hch => h ch (List.mem_cons_of_mem c hch))

lemma pyWordsAux_chain (w : List Char) : ∀ (l cur : List Char),
    (∀ ch ∈ w, ch.isWhitespace = false) →
    pyWordsAux (w ++ l) cur = pyWordsAux l (w.reverse ++ cur) := by
  induction w with
  | nil => intro l cur _; simp
  | cons c w2 ih =>
    intro l cur hw
    have hc : c.isWhitespace = false := hw c (List.mem_cons_self c w2)
    simp only [List.cons_append, pyWordsAux, hc, Bool.false_eq_true, if_false]
    show pyWordsAux (w2 ++ l) (c :: cur) = pyWordsAux l ((c :: w2).reverse ++ cur)
    rw [ih l (c :: cur) (fun d hd => hw d (List.mem_cons_of_mem c hd))]
    simp

lemma pyWordsAux_space (l cur : List Char) :
    pyWordsAux (' ' :: l) cur =
      if cur = [] then pyWordsAux l [] else cur.reverse :: pyWordsAux l [] := by
  simp [pyWordsAux]

lemma intercalate_cons_cons (sep a b : List Char) (t : List (List Char)) :
    List.intercalate sep (a :: b :: t) = a ++ sep ++ List.intercalate sep (b :: t) := by
  simp [List.intercalate, List.intersperse]

lemma intercalate_singleton (sep a : List Char) : List.intercalate sep [a] = a := by
  simp [List.intercalate]

/-- Splitting a space-join of non-empty whitespace-free words recovers
the words. -/
lemma pyWords_intercalate : ∀ (ws : List (List Char)),
    (∀ w ∈ ws, w ≠ []) → (∀ w ∈ ws, ∀ ch ∈ w, ch.isWhitespace = false) →
    pyWords (List.intercalate [' '] ws) = ws := by
  intro ws
  induction ws with
  | nil => intro _ _; rfl
  | cons w t ih =>
    intro h1 h2
    have hw1 : w ≠ [] := h1 w (List.mem_cons_self w t)
    have hw2 : ∀ ch ∈ w, ch.isWhitespace = false := h2 w (List.mem_cons_self w t)
    cases t with
    | nil =>
      rw [intercalate_singleton]
      unfold pyWords
      have := pyWordsAux_chain w [] [] hw2
      rw [List.append_nil] at this
      rw [this]
      simp only [pyWordsAux, List.append_nil, List.reverse_eq_nil_iff]
      rw [if_neg hw1]
      simp
    | cons w2 t2 =>
      rw [intercalate_cons_cons]
      unfold pyWords
      rw [List.append_assoc, List.singleton_append]
      rw [pyWordsAux_chain w (' ' :: List.intercalate [' '] (w2 :: t2)) [] hw2]
      rw [List.append_nil, pyWordsAux_space]
      rw [if_neg (by simpa [List.reverse_eq_nil_iff] using hw1)]
      rw [List.reverse_reverse]
      have ht := ih (fun v hv => h1 v (List.mem_cons_of_mem w hv))
        (fun v hv => h2 v (List.mem_cons_of_mem w hv))
      unfold pyWords at ht
      rw [ht]

/-! ## Lemmas about slices, ranges and the chunk loop -/

lemma pySlice_nat {α : Type} (xs : List α) (i : Nat) (cs : Int) (hcs : 0 < cs) :
    pySlice xs (i : Int) ((i : Int) + cs) = (xs.drop i).take cs.toNat := by
  simp only [pySlice]
  rw [if_neg (by omega), if_neg (by omega)]
  by_cases hin : i ≤ xs.length
  · have hs : (min (i : Int) (xs.length : Int)).toNat = i := by omega
    rw [hs]
    by_cases hend : (i : Int) + cs ≤ (xs.length : Int)
    · have he : (min ((i : Int) + cs) (xs.length : Int) -
          min (i : Int) (xs.length : Int)).toNat = cs.toNat := by
        omega
      rw [he]
    · have he : (min ((i : Int) + cs) (xs.length : Int) -
          min (i : Int) (xs.length : Int)).toNat = xs.length - i := by
        omega
      rw [he]
      rw [List.take_of_length_le (by simp [List.length_drop]),
        List.take_of_length_le (by simp [List.length_drop]; omega)]
  · have hs : (min (i : Int) (xs.length : Int)).toNat = xs.length := by omega
    have he : (min ((i : Int) + cs) (xs.length : Int) -
        (min (i : Int) (xs.length : Int))).toNat = 0 := by omega
    rw [hs, he]
    rw [List.drop_length, List.drop_eq_nil_of_le (by omega)]
    simp

lemma pyRange0_pos (n : Nat) (step : Int) (h : 0 < step) :
    pyRange0 n step = Except.ok (startsList n step.toNat) := by
  unfold pyRange0 startsList
  rw [if_neg (by omega), if_neg (by omega)]

lemma mem_startsList_lt (n S : Nat) (hS : 0 < S) :
    ∀ i ∈ startsList n S, i < n := by
  intro i hi
  obtain ⟨k, hk, rfl⟩ := List.mem_map.mp hi
  have hk2 : k < (n + S - 1) / S := List.mem_range.mp hk
  rcases Nat.eq_zero_or_pos n with hn | hn
  · subst hn
    rw [Nat.div_eq_of_lt (by omega)] at hk2
    omega
  · have hcount : (n + S - 1) / S = (n - 1) / S + 1 := by
      have : n + S - 1 = (n - 1) + S := by omega
      rw [this, Nat.add_div_right _ hS]
    rw [hcount] at hk2
    have : k * S ≤ ((n - 1) / S) * S := Nat.mul_le_mul_right S (by omega)
    have := Nat.div_mul_le_self (n - 1) S
    omega

lemma startsList_cover (n S : Nat) (hS : 0 < S) (j : Nat) (hj : j < n) :
    ∃ i ∈ startsList n S, i ≤ j ∧ j < i + S := by
  refine ⟨j / S * S, ?_, Nat.div_mul_le_self j S, ?_⟩
  · refine List.mem_map.mpr ⟨j / S, List.mem_range.mpr ?_, rfl⟩
    have hcount : (n + S - 1) / S = (n - 1) / S + 1 := by
      have : n + S - 1 = (n - 1) + S := by omega
      rw [this, Nat.add_div_right _ hS]
    rw [hcount]
    have := Nat.div_le_div_right (c := S) (show j ≤ n - 1 by omega)
    omega
  · have h1 : j / S * S + j % S = j := by
      rw [Nat.mul_comm]
      exact Nat.div_add_mod j S
    have h2 := Nat.mod_lt j hS
    omega

lemma get_mem_window (ws : List (List Char)) (i j C : Nat) (hij : i ≤ j)
    (hjw : j < i + C) (hj : j < ws.length) :
    ws.get ⟨j, hj⟩ ∈ (ws.drop i).take C := by
  have hlen : j - i < ((ws.drop i).take C).length := by
    simp only [List.length_take, List.length_drop]
    omega
  refine List.mem_iff_getElem.mpr ⟨j - i, hlen, ?_⟩
  rw [List.getElem_take, List.getElem_drop]
  rw [List.get_eq_getElem]
  congr 1
  show i + (j - i) = j
  omega

lemma intercalate_space_ne_nil (ws : List (List Char)) (hne : ws ≠ [])
    (h1 : ∀ w ∈ ws, w ≠ []) : List.intercalate [' '] ws ≠ [] := by
  cases ws with
  | nil => exact absurd rfl hne
  | cons a t =>
    cases t with
    | nil =>
      rw [intercalate_singleton]
      exact h1 a (List.mem_cons_self a [])
    | cons b t2 =>
      rw [intercalate_cons_cons]
      simp

lemma foldl_all_ne (f : Nat → List Char) : ∀ (idxs : List Nat) (acc : List (List Char)),
    (∀ i ∈ idxs, f i ≠ []) →
    idxs.foldl (fun chunks i => if f i = [] then chunks else chunks ++ [f i]) acc
      = acc ++ idxs.map f := by
  intro idxs
  induction idxs with
  | nil => intro acc _; simp
  | cons i t ih =>
    intro acc h
    have hi : f i ≠ [] := h i (List.mem_cons_self i t)
    simp only [List.foldl_cons, if_neg hi, List.map_cons]
    rw [ih (acc ++ [f i]) (fun v hv => h v (List.mem_cons_of_mem i hv))]
    simp

lemma foldl_mem_ne (f : Nat → List Char) : ∀ (idxs : List Nat) (acc : List (List Char)),
    (∀ c ∈ acc, c ≠ []) →
    ∀ c ∈ idxs.foldl (fun chunks i => if f i = [] then chunks else chunks ++ [f i]) acc,
      c ≠ [] := by
  intro idxs
  induction idxs with
  | nil => intro acc h c hc; exact h c hc
  | cons i t ih =>
    intro acc h c hc
    simp only [List.foldl_cons] at hc
    by_cases hi : f i = []
    · rw [if_pos hi] at hc
      exact ih acc h c hc
    · rw [if_neg hi] at hc
      refine ih (acc ++ [f i]) ?_ c hc
      intro v hv
      rcases List.mem_append.mp hv with h2 | h2
      · exact h v h2
      · simp only [List.mem_singleton] at h2
        subst h2
        exact hi

/-- With a valid configuration and non-empty words, the chunk loop
produces exactly the space-join of each window, one chunk per start
index. -/
lemma chunksFromWords_eq_map (ws : List (List Char)) (cs ov : Int)
    (hcs : 0 < cs) (hstep : 0 < cs - ov) (hw : ∀ w ∈ ws, w ≠ []) :
    chunksFromWords ws cs ov
      = Except.ok ((startsList ws.length (cs - ov).toNat).map
          (fun (i : Nat) => List.intercalate [' '] (pySlice ws (i : Int) ((i : Int) + cs)))) := by
  unfold chunksFromWords
  rw [pyRange0_pos _ _ hstep]
  have hne : ∀ i ∈ startsList ws.length (cs - ov).toNat,
      List.intercalate [' '] (pySlice ws (i : Int) ((i : Int) + cs)) ≠ [] := by
    intro i hi
    have hilt := mem_startsList_lt _ _ (by omega) i hi
    rw [pySlice_nat _ _ _ hcs]
    apply intercalate_space_ne_nil
    · apply List.ne_nil_of_length_pos
      simp only [List.length_take, List.length_drop]
      omega
    · intro w hw2
      exact hw w (List.mem_of_mem_drop (List.mem_of_mem_take hw2))
  have hfold := foldl_all_ne
    (fun i => List.intercalate [' '] (pySlice ws (i : Int) ((i : Int) + cs)))
    (startsList ws.length (cs - ov).toNat) [] hne
  rw [List.nil_append] at hfold
  exact congrArg Except.ok hfold

lemma mem_of_getElemQ {α : Type} {l : List α} {k : Nat} {a : α}
    (h : l[k]? = some a) : a ∈ l := by
  obtain ⟨hk, he⟩ := List.getElem?_eq_some_iff.mp h
  exact List.mem_iff_getElem.mpr ⟨k, hk, he⟩

/-- Splitting a window's space-join recovers the window (windows of the
word list of a text are non-empty whitespace-free words). -/
lemma pyWords_window (text : List Char) (i : Nat) (cs : Int) (hcs : 0 < cs) :
    pyWords (List.intercalate [' '] (pySlice (pyWords text) (i : Int) ((i : Int) + cs)))
      = pySlice (pyWords text) (i : Int) ((i : Int) + cs) := by
  apply pyWords_intercalate
  · intro w hw
    rw [pySlice_nat _ _ _ hcs] at hw
    exact pyWords_ne_nil text w (List.mem_of_mem_drop (List.mem_of_mem_take hw))
  · intro w hw
    rw [pySlice_nat _ _ _ hcs] at hw
    exact pyWords_no_ws text w (List.mem_of_mem_drop (List.mem_of_mem_take hw))

lemma startsList_getElem_inv (n S k x : Nat)
    (h : (startsList n S)[k]? = some x) : x = k * S ∧ k < (n + S - 1) / S := by
  unfold startsList at h
  rw [List.getElem?_map] at h
  rcases Option.map_eq_some'.mp h with ⟨y, hy, hyx⟩
  obtain ⟨hk, he⟩ := List.getElem?_eq_some_iff.mp hy
  rw [List.getElem_range] at he
  rw [List.length_range] at hk
  subst he
  exact ⟨hyx.symm, hk⟩

/-- C2: with a valid configuration the chunk windows cover the input:
the chunks are exactly the space-joins of the windows at start indices
`0, S, 2S, …` (source order), every word of the text occurs in some
returned chunk, and for any 1200-word input with `chunk_size = 500`,
`overlap = 50` the windows start at word indices 0, 450, 900 giving
three chunks of at most 500 words each. -/
theorem chunk_text_full_coverage (text : List Char) (cs ov : Int)
    (hcs : 0 < cs) (hov : 0 ≤ ov) (hlt : ov < cs) :
    ∃ starts chunks,
      pyRange0 (pyWords text).length (cs - ov) = Except.ok starts ∧
      chunk_text text cs ov = Except.ok chunks ∧
      chunks = starts.map (fun (i : Nat) =>
        List.intercalate [' '] (pySlice (pyWords text) (i : Int) ((i : Int) + cs))) ∧
      starts = (List.range starts.length).map (fun k => k * (cs - ov).toNat) ∧
      (∀ j, (hj : j < (pyWords text).length) →
        ∃ c ∈ chunks, (pyWords text).get ⟨j, hj⟩ ∈ pyWords c) ∧
      (∀ ws : List (List Char), ws.length = 1200 → (∀ w ∈ ws, w ≠ []) →
        chunksFromWords ws 500 50 = Except.ok ([0, 450, 900].map (fun (i : Nat) =>
          List.intercalate [' '] (pySlice ws (i : Int) ((i : Int) + 500)))) ∧
        ∀ i ∈ [0, 450, 900], (pySlice ws ((i : Nat) : Int) ((i : Int) + 500)).length ≤ 500) := by
  have hstep : 0 < cs - ov := by omega
  refine ⟨startsList (pyWords text).length (cs - ov).toNat,
    (startsList (pyWords text).length (cs - ov).toNat).map (fun (i : Nat) =>
      List.intercalate [' '] (pySlice (pyWords text) (i : Int) ((i : Int) + cs))),
    pyRange0_pos _ _ hstep,
    chunksFromWords_eq_map (pyWords text) cs ov hcs hstep (pyWords_ne_nil text),
    rfl, ?_, ?_, ?_⟩
  · simp [startsList]
  · intro j hj
    obtain ⟨i, hi, hij, hjw⟩ :=
      startsList_cover (pyWords text).length (cs - ov).toNat (by omega) j hj
    refine ⟨List.intercalate [' '] (pySlice (pyWords text) (i : Int) ((i : Int) + cs)),
      List.mem_map_of_mem _ hi, ?_⟩
    rw [pyWords_window text i cs hcs, pySlice_nat _ _ _ hcs]
    exact get_mem_window _ _ _ _ hij (by omega) hj
  · intro ws hlen hwne
    have h450 : ((500 : Int) - 50).toNat = 450 := rfl
    have h1200 : startsList ws.length 450 = [0, 450, 900] := by
      rw [hlen]; decide
    constructor
    · have hmap := chunksFromWords_eq_map ws 500 50 (by norm_num) (by norm_num) hwne
      rw [hmap, h450, h1200]
    · intro i _
      rw [pySlice_nat _ _ _ (by norm_num)]
      simp only [List.length_take, List.length_drop]
      omega

/-- Witness for C2 at the concrete input `"a b"`, `chunk_size = 2`,
`overlap = 1`. -/
theorem chunk_text_full_coverage_witness :
    ∃ starts chunks,
      pyRange0 (pyWords "a b".data).length (2 - 1) = Except.ok starts ∧
      chunk_text "a b".data 2 1 = Except.ok chunks ∧
      chunks = starts.map (fun (i : Nat) =>
        List.intercalate [' '] (pySlice (pyWords "a b".data) (i : Int) ((i : Int) + 2))) ∧
      starts = (List.range starts.length).map (fun k => k * ((2 : Int) - 1).toNat) ∧
      (∀ j, (hj : j < (pyWords "a b".data).length) →
        ∃ c ∈ chunks, (pyWords "a b".data).get ⟨j, hj⟩ ∈ pyWords c) ∧
      (∀ ws : List (List Char), ws.length = 1200 → (∀ w ∈ ws, w ≠ []) →
        chunksFromWords ws 500 50 = Except.ok ([0, 450, 900].map (fun (i : Nat) =>
          List.intercalate [' '] (pySlice ws (i : Int) ((i : Int) + 500)))) ∧
        ∀ i ∈ [0, 450, 900], (pySlice ws ((i : Nat) : Int) ((i : Int) + 500)).length ≤ 500) :=
  chunk_text_full_coverage "a b".data 2 1 (by decide) (by decide) (by decide)

/-- Counterexample to C3 as stated: with `chunk_size = 3`, `overlap = 2`
on the four-word input `"a b c d"` (more than one chunk, so not the
claim's degenerate exception) the last two chunks are `"c d"` and `"d"`:
the last 2 words of `"c d"` are not the first 2 words of `"d"`, and the
pair shares fewer than `overlap` words. -/
theorem chunk_text_overlap_counterexample :
    chunk_text "a b c d".data 3 2
        = Except.ok ["a b c".data, "b c d".data, "c d".data, "d".data] ∧
      3 < (pyWords "a b c d".data).length ∧
      (pyWords "c d".data).drop ((pyWords "c d".data).length - 2)
        ≠ (pyWords "d".data).take 2 := by
  refine ⟨by rfl, by decide, by decide⟩

/-- C3 (amended): with a valid configuration, a pair of consecutive
chunks shares exactly `overlap` words — the last `overlap` words of the
earlier chunk are the first `overlap` words of the later one — whenever
the earlier chunk is a full window (`start + chunk_size ≤` word count).
When the earlier window is truncated, the later chunk is instead the
earlier one with its first `chunk_size - overlap` words removed (so the
pair shares fewer than `overlap` words). -/
theorem chunk_text_overlap_amended (text : List Char) (cs ov : Int)
    (hcs : 0 < cs) (hov : 0 ≤ ov) (hlt : ov < cs) :
    ∃ chunks, chunk_text text cs ov = Except.ok chunks ∧
      ∀ k a b, chunks[k]? = some a → chunks[k + 1]? = some b →
        (k * (cs - ov).toNat + cs.toNat ≤ (pyWords text).length →
          (pyWords a).drop (cs.toNat - ov.toNat) = (pyWords b).take ov.toNat ∧
          ((pyWords a).drop (cs.toNat - ov.toNat)).length = ov.toNat) ∧
        ((pyWords text).length < k * (cs - ov).toNat + cs.toNat →
          pyWords b = (pyWords a).drop (cs - ov).toNat) := by
  have hstep : 0 < cs - ov := by omega
  set ws := pyWords text with hws
  set S := (cs - ov).toNat with hSdef
  set n := ws.length with hn
  refine ⟨_, chunksFromWords_eq_map ws cs ov hcs hstep (pyWords_ne_nil text), ?_⟩
  intro k a b ha hb
  rw [List.getElem?_map] at ha hb
  rcases Option.map_eq_some'.mp ha with ⟨i1, hi1, ha2⟩
  rcases Option.map_eq_some'.mp hb with ⟨i2, hi2, hb2⟩
  obtain ⟨hi1e, _⟩ := startsList_getElem_inv n S k i1 hi1
  obtain ⟨hi2e, _⟩ := startsList_getElem_inv n S (k + 1) i2 hi2
  subst hi1e hi2e
  have hmem1 : k * S < n := mem_startsList_lt n S (by omega) _ (mem_of_getElemQ hi1)
  have hmem2 : (k + 1) * S < n := mem_startsList_lt n S (by omega) _ (mem_of_getElemQ hi2)
  have hwa : pyWords a = (ws.drop (k * S)).take cs.toNat := by
    rw [← ha2, pyWords_window text _ _ hcs, pySlice_nat _ _ _ hcs]
  have hwb : pyWords b = (ws.drop ((k + 1) * S)).take cs.toNat := by
    rw [← hb2, pyWords_window text _ _ hcs, pySlice_nat _ _ _ hcs]
  have hsucc : (k + 1) * S = k * S + S := by ring
  constructor
  · intro hfull
    have hCV : cs.toNat - (cs.toNat - ov.toNat) = ov.toNat := by omega
    have hdi : k * S + (cs.toNat - ov.toNat) = (k + 1) * S := by
      rw [hsucc]; omega
    constructor
    · rw [hwa, hwb, List.drop_take, List.drop_drop, hdi, hCV, List.take_take]
      congr 1
      omega
    · rw [hwa]
      simp only [List.length_drop, List.length_take]
      omega
  · intro htrunc
    have hdi : k * S + S = (k + 1) * S := by rw [hsucc]
    rw [hwa, hwb, List.drop_take, List.drop_drop, hdi]
    rw [List.take_of_length_le, List.take_of_length_le]
    · simp only [List.length_drop]
      omega
    · simp only [List.length_drop]
      omega

/-- Witness for the amended C3 at `"a b c d"`, `chunk_size = 3`,
`overlap = 2`. -/
theorem chunk_text_overlap_amended_witness :
    ∃ chunks, chunk_text "a b c d".data 3 2 = Except.ok chunks ∧
      ∀ k a b, chunks[k]? = some a → chunks[k + 1]? = some b →
        (k * ((3 : Int) - 2).toNat + (3 : Int).toNat ≤ (pyWords "a b c d".data).length →
          (pyWords a).drop ((3 : Int).toNat - (2 : Int).toNat)
              = (pyWords b).take (2 : Int).toNat ∧
          ((pyWords a).drop ((3 : Int).toNat - (2 : Int).toNat)).length = (2 : Int).toNat) ∧
        ((pyWords "a b c d".data).length < k * ((3 : Int) - 2).toNat + (3 : Int).toNat →
          pyWords b = (pyWords a).drop ((3 : Int) - 2).toNat) :=
  chunk_text_overlap_amended "a b c d".data 3 2 (by decide) (by decide) (by decide)

/-- Counterexample to C4 as stated: the chunker performs no
configuration validation.  With `overlap = 2 > 1 = chunk_size` the
stride is negative, the Python range is empty, and the call silently
returns an empty list instead of failing; likewise for
`chunk_size = -5 ≤ 0`. -/
theorem chunk_text_invalid_config_counterexample :
    chunk_text "a".data 1 2 = Except.ok [] ∧
      chunk_text "a".data (-5) 0 = Except.ok [] := by
  exact ⟨by rfl, by rfl⟩

/-- C4 (amended): the chunker validates nothing.  When the stride
`chunk_size - overlap` is zero (in particular `overlap = chunk_size`)
the underlying `range` call raises `ValueError`; when the stride is
negative (in particular `overlap > chunk_size`, or `chunk_size ≤ 0` with
`overlap > chunk_size`) the call silently returns the empty chunk list —
there is no configuration error and no startup abort. -/
theorem chunk_text_invalid_config (text : List Char) (cs ov : Int) :
    (cs - ov = 0 →
      chunk_text text cs ov = Except.error ("range() arg 3 must not be zero".data)) ∧
    (cs - ov < 0 → chunk_text text cs ov = Except.ok []) := by
  constructor
  · intro h
    unfold chunk_text chunksFromWords pyRange0
    rw [if_pos h]
  · intro h
    unfold chunk_text chunksFromWords pyRange0
    rw [if_neg (by omega), if_pos h]
    rfl

/-- Witness for the amended C4: `chunk_size = 2 = overlap` errors;
`chunk_size = 1 < 2 = overlap` silently yields no chunks. -/
theorem chunk_text_invalid_config_witness :
    chunk_text "a".data 2 2 = Except.error ("range() arg 3 must not be zero".data) ∧
      chunk_text "a".data 1 2 = Except.ok [] :=
  ⟨(chunk_text_invalid_config "a".data 2 2).1 (by decide),
    (chunk_text_invalid_config "a".data 1 2).2 (by decide)⟩

/-- C10: every chunk the chunker returns is a non-empty string, and an
empty or whitespace-only input yields no chunks at all. -/
theorem chunk_text_chunks_nonempty (text : List Char) (cs ov : Int)
    (chunks : List (List Char)) (h : chunk_text text cs ov = Except.ok chunks) :
    (∀ c ∈ chunks, c ≠ []) ∧
      ((∀ ch ∈ text, ch.isWhitespace = true) → chunks = []) := by
  unfold chunk_text chunksFromWords at h
  cases hr : pyRange0 (pyWords text).length (cs - ov) with
  | error e =>
    rw [hr] at h
    exact absurd h (by simp)
  | ok idxs =>
    rw [hr] at h
    simp only [Except.ok.injEq] at h
    constructor
    · intro c hcc
      rw [← h] at hcc
      exact foldl_mem_ne
        (fun i => List.intercalate [' '] (pySlice (pyWords text) (i : Int) ((i : Int) + cs)))
        idxs [] (by simp) c hcc
    · intro hws
      have h0 : pyWords text = [] := pyWords_all_ws text hws
      rw [h0] at hr
      simp only [List.length_nil] at hr
      unfold pyRange0 at hr
      have hidx : idxs = [] := by
        by_cases h1 : cs - ov = 0
        · rw [if_pos h1] at hr
          exact absurd hr (by simp)
        · rw [if_neg h1] at hr
          by_cases h2 : cs - ov < 0
          · rw [if_pos h2] at hr
            simpa using hr.symm
          · rw [if_neg h2] at hr
            have hS : 0 < (cs - ov).toNat := by omega
            rw [Nat.div_eq_of_lt (by omega)] at hr
            simpa using hr.symm
      rw [hidx] at h
      simpa using h.symm

/-- Witness for C10 at the whitespace-only input `" "`. -/
theorem chunk_text_chunks_nonempty_witness :
    (∀ c ∈ ([] : List (List Char)), c ≠ []) ∧
      ((∀ ch ∈ " ".data, ch.isWhitespace = true) → ([] : List (List Char)) = []) :=
  chunk_text_chunks_nonempty " ".data 500 50 [] (by rfl)

/-- C1: once retrieval has produced its document list, every call to
`RAGApp.query` performs exactly one `save_query_log` call before
returning — on the backend success path and on the backend failure path
alike. -/
theorem query_writes_one_log (question : List Char) (docs : List (List Char))
    (backend : List Char → Except (List Char) ChatResponse)
    (now : PyDatetime) (pdf_path : List Char) :
    ∃ answer logs, RAGApp.query question (Except.ok docs) backend now pdf_path
        = Except.ok (answer, logs) ∧ logs.length = 1 := by
  simp only [RAGApp.query]
  cases backend (queryPrompt (queryContext docs) question) with
  | ok r => exact ⟨_, _, rfl, rfl⟩
  | error e => exact ⟨_, _, rfl, rfl⟩

/-- C5: if the backend call raises, `RAGApp.query` returns the non-empty
error-description string `Error querying model: {e}` instead of
propagating, and the single log record written for the query has no
`token_details` field. -/
theorem query_backend_failure_logged (question : List Char) (docs : List (List Char))
    (backend : List Char → Except (List Char) ChatResponse)
    (now : PyDatetime) (pdf_path : List Char) (e : List Char)
    (hb : backend (queryPrompt (queryContext docs) question) = Except.error e) :
    ∃ entry, RAGApp.query question (Except.ok docs) backend now pdf_path
        = Except.ok ("Error querying model: ".data ++ e, [entry]) ∧
      "Error querying model: ".data ++ e ≠ [] ∧
      entry.2.token_details = none := by
  simp only [RAGApp.query, hb]
  refine ⟨_, rfl, ?_, rfl⟩
  intro hcontr
  have h1 : "Error querying model: ".data ≠ [] := by decide
  exact h1 (List.append_eq_nil.mp hcontr).1

/-- Witness for C5 with a backend that raises `boom`. -/
theorem query_backend_failure_logged_witness :
    ∃ entry, RAGApp.query "hi".data (Except.ok ["ctx".data])
          (fun _ => Except.error "boom".data) ⟨2026, 10, 12, 1, 2, 3, 4⟩ "doc.pdf".data
        = Except.ok ("Error querying model: ".data ++ "boom".data, [entry]) ∧
      "Error querying model: ".data ++ "boom".data ≠ [] ∧
      entry.2.token_details = none :=
  query_backend_failure_logged "hi".data ["ctx".data] (fun _ => Except.error "boom".data)
    ⟨2026, 10, 12, 1, 2, 3, 4⟩ "doc.pdf".data "boom".data rfl

/-- Counterexample to C6 as stated: when the vector-store query raises,
`RAGApp.query` does not answer the question with an empty context — the
exception propagates out of the call (no prompt is built, no answer is
produced, and no log record is written). -/
theorem query_retrieval_failure_counterexample :
    RAGApp.query "What?".data (Except.error "embedding failure".data)
        (fun _ => Except.error []) ⟨2026, 1, 1, 0, 0, 0, 0⟩ "doc.pdf".data
      = Except.error "embedding failure".data := rfl

/-- C6 (amended): a retrieval failure propagates out of `RAGApp.query`
(which therefore returns no answer and writes no log record), and the
interactive loop's per-iteration handler catches the exception, prints
an error, and keeps the session alive; the question is not answered with
an empty context. -/
theorem query_retrieval_failure_session (raw e : List Char)
    (backend : List Char → Except (List Char) ChatResponse)
    (now : PyDatetime) (pdf_path : List Char)
    (hq : pyStrip raw ≠ [])
    (hcmd : pyLower (pyStrip raw) ∉ ["quit".data, "exit".data, "q".data])
    (hstats : pyLower (pyStrip raw) ≠ "stats".data) :
    RAGApp.query (pyStrip raw) (Except.error e) backend now pdf_path
        = Except.error e ∧
      run_interactive_step raw (fun question =>
          (RAGApp.query question (Except.error e) backend now pdf_path).map
            (fun r => r.1))
        = LoopStep.errored ("Error: ".data ++ e) ∧
      LoopStep.errored ("Error: ".data ++ e) ≠ LoopStep.quit := by
  refine ⟨rfl, ?_, by simp⟩
  unfold run_interactive_step
  rw [if_neg hq, if_neg hcmd, if_neg hstats]
  rfl

/-- Witness for the amended C6 at the question `" why? "`. -/
theorem query_retrieval_failure_session_witness :
    RAGApp.query (pyStrip " why? ".data) (Except.error "down".data)
        (fun _ => Except.error []) ⟨2026, 1, 1, 0, 0, 0, 0⟩ "doc.pdf".data
        = Except.error "down".data ∧
      run_interactive_step " why? ".data (fun question =>
          (RAGApp.query question (Except.error "down".data)
            (fun _ => Except.error []) ⟨2026, 1, 1, 0, 0, 0, 0⟩ "doc.pdf".data).map
            (fun r => r.1))
        = LoopStep.errored ("Error: ".data ++ "down".data) ∧
      LoopStep.errored ("Error: ".data ++ "down".data) ≠ LoopStep.quit :=
  query_retrieval_failure_session " why? ".data "down".data (fun _ => Except.error [])
    ⟨2026, 1, 1, 0, 0, 0, 0⟩ "doc.pdf".data (by decide) (by decide) (by decide)

/-- C9: the prompt `RAGApp.query` assembles and sends to the backend is
the fixed three-part template of the spec — context block (retrieved
chunks joined by a blank line, in ranked order), literal question,
answer cue: the source prompt equals the spec template, and the query
result depends on the backend only through its value at that template. -/
theorem query_prompt_is_template (docs : List (List Char)) (question : List Char) :
    queryPrompt (queryContext docs) question = specThreePartPrompt docs question ∧
      queryContext docs = List.intercalate "\n\n".data docs ∧
      ∀ (b1 b2 : List Char → Except (List Char) ChatResponse) (now : PyDatetime)
        (pdf_path : List Char),
        b1 (specThreePartPrompt docs question) = b2 (specThreePartPrompt docs question) →
        RAGApp.query question (Except.ok docs) b1 now pdf_path
          = RAGApp.query question (Except.ok docs) b2 now pdf_path := by
  have hq : queryPrompt (queryContext docs) question = specThreePartPrompt docs question := by
    simp [queryPrompt, specThreePartPrompt, queryContext, List.append_assoc]
  refine ⟨hq, rfl, ?_⟩
  intro b1 b2 now pdf_path h
  simp only [RAGApp.query, hq, h]

/-- Witness for C9 at one retrieved chunk and equal backends. -/
theorem query_prompt_is_template_witness :
    queryPrompt (queryContext ["ctx".data]) "why".data
        = specThreePartPrompt ["ctx".data] "why".data ∧
      queryContext ["ctx".data] = List.intercalate "\n\n".data ["ctx".data] ∧
      ∀ (b1 b2 : List Char → Except (List Char) ChatResponse) (now : PyDatetime)
        (pdf_path : List Char),
        b1 (specThreePartPrompt ["ctx".data] "why".data)
            = b2 (specThreePartPrompt ["ctx".data] "why".data) →
        RAGApp.query "why".data (Except.ok ["ctx".data]) b1 now pdf_path
          = RAGApp.query "why".data (Except.ok ["ctx".data]) b2 now pdf_path :=
  query_prompt_is_template ["ctx".data] "why".data

/-- C7: `VectorIndex.query` returns at most `top_k` results and at most
`count()` results, ordered by non-increasing similarity score, and when
the generation holds fewer than `top_k` entries it returns all of them
(every entry appears, with its score). -/
theorem vectorIndex_query_bounds (entries : List IndexEntry) (sim : IndexEntry → Rat)
    (top_k : Nat) (htop : 0 < top_k) :
    (VectorIndex.query entries sim top_k).length ≤ top_k ∧
      (VectorIndex.query entries sim top_k).length ≤ VectorIndex.count entries ∧
      List.Sorted scoreGE (VectorIndex.query entries sim top_k) ∧
      (VectorIndex.count entries < top_k →
        ∀ e ∈ entries, (e, sim e) ∈ VectorIndex.query entries sim top_k) := by
  unfold VectorIndex.query VectorIndex.count
  refine ⟨List.length_take_le _ _, ?_, ?_, ?_⟩
  · rw [List.length_take, List.length_insertionSort, List.length_map]
    omega
  · exact List.Pairwise.sublist (List.take_sublist _ _)
      (List.sorted_insertionSort scoreGE _)
  · intro hlt e he
    rw [List.take_of_length_le
      (by rw [List.length_insertionSort, List.length_map]; omega)]
    exact ((List.perm_insertionSort scoreGE _).mem_iff).mpr (List.mem_map_of_mem _ he)

/-- Witness for C7: three entries, `top_k = 5`. -/
theorem vectorIndex_query_bounds_witness :
    (VectorIndex.query [⟨0, "a".data⟩, ⟨1, "b".data⟩, ⟨2, "c".data⟩]
        (fun e => (e.id : Rat)) 5).length ≤ 5 ∧
      (VectorIndex.query [⟨0, "a".data⟩, ⟨1, "b".data⟩, ⟨2, "c".data⟩]
          (fun e => (e.id : Rat)) 5).length
        ≤ VectorIndex.count [⟨0, "a".data⟩, ⟨1, "b".data⟩, ⟨2, "c".data⟩] ∧
      List.Sorted scoreGE (VectorIndex.query [⟨0, "a".data⟩, ⟨1, "b".data⟩, ⟨2, "c".data⟩]
        (fun e => (e.id : Rat)) 5) ∧
      (VectorIndex.count [⟨0, "a".data⟩, ⟨1, "b".data⟩, ⟨2, "c".data⟩] < 5 →
        ∀ e ∈ [⟨0, "a".data⟩, ⟨1, "b".data⟩, ⟨2, "c".data⟩],
          (e, (e.id : Rat)) ∈ VectorIndex.query [⟨0, "a".data⟩, ⟨1, "b".data⟩, ⟨2, "c".data⟩]
            (fun e => (e.id : Rat)) 5) :=
  vectorIndex_query_bounds [⟨0, "a".data⟩, ⟨1, "b".data⟩, ⟨2, "c".data⟩]
    (fun e => (e.id : Rat)) 5 (by decide)

/-! ## Filename injectivity (C8) -/

lemma digitChar_inj : ∀ a < 10, ∀ b < 10, digitChar a = digitChar b → a = b := by
  decide

lemma pad2_inj (a b : Nat) (ha : a < 100) (hb : b < 100) (h : pad2 a = pad2 b) :
    a = b := by
  simp only [pad2, List.cons.injEq, and_true] at h
  obtain ⟨e1, e2⟩ := h
  have g1 := digitChar_inj _ (Nat.mod_lt _ (by omega)) _ (Nat.mod_lt _ (by omega)) e1
  have g2 := digitChar_inj _ (Nat.mod_lt _ (by omega)) _ (Nat.mod_lt _ (by omega)) e2
  omega

lemma pad4_inj (a b : Nat) (ha : a < 10000) (hb : b < 10000) (h : pad4 a = pad4 b) :
    a = b := by
  simp only [pad4, List.cons.injEq, and_true] at h
  obtain ⟨e1, e2, e3, e4⟩ := h
  have g1 := digitChar_inj _ (Nat.mod_lt _ (by omega)) _ (Nat.mod_lt _ (by omega)) e1
  have g2 := digitChar_inj _ (Nat.mod_lt _ (by omega)) _ (Nat.mod_lt _ (by omega)) e2
  have g3 := digitChar_inj _ (Nat.mod_lt _ (by omega)) _ (Nat.mod_lt _ (by omega)) e3
  have g4 := digitChar_inj _ (Nat.mod_lt _ (by omega)) _ (Nat.mod_lt _ (by omega)) e4
  omega

lemma pad6_inj (a b : Nat) (ha : a < 1000000) (hb : b < 1000000) (h : pad6 a = pad6 b) :
    a = b := by
  simp only [pad6, List.cons.injEq, and_true] at h
  obtain ⟨e1, e2, e3, e4, e5, e6⟩ := h
  have g1 := digitChar_inj _ (Nat.mod_lt _ (by omega)) _ (Nat.mod_lt _ (by omega)) e1
  have g2 := digitChar_inj _ (Nat.mod_lt _ (by omega)) _ (Nat.mod_lt _ (by omega)) e2
  have g3 := digitChar_inj _ (Nat.mod_lt _ (by omega)) _ (Nat.mod_lt _ (by omega)) e3
  have g4 := digitChar_inj _ (Nat.mod_lt _ (by omega)) _ (Nat.mod_lt _ (by omega)) e4
  have g5 := digitChar_inj _ (Nat.mod_lt _ (by omega)) _ (Nat.mod_lt _ (by omega)) e5
  have g6 := digitChar_inj _ (Nat.mod_lt _ (by omega)) _ (Nat.mod_lt _ (by omega)) e6
  omega

/-- The fixed-width timestamp rendering is injective on valid datetimes. -/
lemma strftimeQuery_inj (t1 t2 : PyDatetime) (h1 : t1.Valid) (h2 : t2.Valid)
    (h : strftimeQuery t1 = strftimeQuery t2) : t1 = t2 := by
  obtain ⟨y1, mo1, d1, hr1, mi1, s1, mc1⟩ := t1
  obtain ⟨y2, mo2, d2, hr2, mi2, s2, mc2⟩ := t2
  unfold PyDatetime.Valid at h1 h2
  dsimp only at h1 h2
  obtain ⟨hy1, hmo1a, hmo1, hd1a, hd1, hh1, hmi1, hs1, hmc1⟩ := h1
  obtain ⟨hy2, hmo2a, hmo2, hd2a, hd2, hh2, hmi2, hs2, hmc2⟩ := h2
  unfold strftimeQuery at h
  simp only [List.append_assoc] at h
  obtain ⟨hy, h⟩ := List.append_inj h rfl
  obtain ⟨hmo, h⟩ := List.append_inj h rfl
  obtain ⟨hd, h⟩ := List.append_inj h rfl
  obtain ⟨-, h⟩ := List.append_inj h rfl
  obtain ⟨hh, h⟩ := List.append_inj h rfl
  obtain ⟨hmi, h⟩ := List.append_inj h rfl
  obtain ⟨hs, h⟩ := List.append_inj h rfl
  obtain ⟨-, hmc⟩ := List.append_inj h rfl
  have g1 := pad4_inj _ _ hy1 hy2 hy
  have g2 := pad2_inj _ _ (by omega) (by omega) hmo
  have g3 := pad2_inj _ _ (by omega) (by omega) hd
  have g4 := pad2_inj _ _ (by omega) (by omega) hh
  have g5 := pad2_inj _ _ (by omega) (by omega) hmi
  have g6 := pad2_inj _ _ (by omega) (by omega) hs
  have g7 := pad6_inj _ _ hmc1 hmc2 hmc
  simp only [PyDatetime.mk.injEq]
  exact ⟨g1, g2, g3, g4, g5, g6, g7⟩

/-- C8: any two `save_query_log` writes observing distinct wall-clock
datetimes — in particular two writes within the same second but at
different microseconds — produce distinct log filenames: the filename
embeds the full fixed-width `%Y%m%d_%H%M%S_%f` timestamp. -/
theorem save_query_log_filenames_distinct (t1 t2 : PyDatetime)
    (h1 : t1.Valid) (h2 : t2.Valid) (hne : t1 ≠ t2)
    (pdf1 q1 a1 pdf2 q2 a2 : List Char) (cl1 pl1 cl2 pl2 : Nat)
    (ti1 ti2 : Option TokenInfo) :
    (save_query_log t1 pdf1 q1 a1 cl1 pl1 ti1).1
      ≠ (save_query_log t2 pdf2 q2 a2 cl2 pl2 ti2).1 := by
  intro h
  apply hne
  simp only [save_query_log] at h
  have hts : strftimeQuery t1 = strftimeQuery t2 :=
    List.append_cancel_left (List.append_cancel_right h)
  exact strftimeQuery_inj t1 t2 h1 h2 hts

/-- Witness for C8: two writes in the same wall-clock second
(2026-10-12 03:04:05) at microseconds 1 and 2 get distinct filenames. -/
theorem save_query_log_filenames_distinct_witness :
    (save_query_log ⟨2026, 10, 12, 3, 4, 5, 1⟩ "doc.pdf".data "q1".data "a1".data
        7 9 none).1
      ≠ (save_query_log ⟨2026, 10, 12, 3, 4, 5, 2⟩ "doc.pdf".data "q2".data "a2".data
        7 9 none).1 :=
  save_query_log_filenames_distinct ⟨2026, 10, 12, 3, 4, 5, 1⟩ ⟨2026, 10, 12, 3, 4, 5, 2⟩
    (by decide) (by decide) (by decide) "doc.pdf".data "q1".data "a1".data
    "doc.pdf".data "q2".data "a2".data 7 9 7 9 none none
